import Mathlib

/-!
Shallow embedding of the internal diagnostics and telemetry-loss accounting
subsystem of an analytics SDK: the `_InternalLogging` diagnostic log (severity
filter, per-page-view throttle with a sentinel message, console fallback) and
the `DataLossAnalyzer` loss ledger (two counters persisted in session storage,
a per-session report limit, try/catch error discipline).

Host effects are modelled explicitly: the console and the persistence backend
are parameters whose methods may be missing or may throw; JavaScript exceptions
are surfaced as `Except` errors or as an `exn`/`thrown` field in the result of
an operation, and JavaScript object mutation is rendered as explicit state
passing (each operation returns the updated state and the updated argument).
-/

namespace AppInsights

/-- The two-tier severity enum: CRITICAL = 0 (sent as internal telemetry),
WARNING = 1 (console only unless verbose). -/
inductive LoggingSeverity where
  | CRITICAL
  | WARNING
  deriving DecidableEq

/-- Model of the `properties` field of a log message, as seen by
`typeof (message.properties) === "object"` and `JSON.stringify`:
`notObj` means the typeof test fails; `obj (some s)` is an object that
stringifies to `s`; `obj none` is an object on which `JSON.stringify` throws
(e.g. a cyclic structure). -/
inductive JsProps where
  | notObj : JsProps
  | obj : Option String → JsProps
  deriving DecidableEq

/-- `_InternalLogMessage`: `message` is `none` when the field is undefined
(the source checks `typeof (message.message) !== "undefined"`). -/
structure LogMessage where
  message : Option String
  properties : JsProps
  deriving DecidableEq

/-- JSON rendering of the empty object, the constructor default. -/
def emptyObjectJson : String := "\x7b\x7d"

/-- The `_InternalLogMessage` constructor: an undefined or falsy `properties`
argument is replaced by a fresh empty object. -/
def mkInternalLogMessage (msg : String) (props : Option JsProps) : LogMessage :=
  { message := some msg,
    properties :=
      match props with
      | none => JsProps.obj (some emptyObjectJson)
      | some p => p }

/-- Behaviour of one console method at its call site: not a function,
a call that returns normally, or a call that throws. -/
inductive ConsoleMethod where
  | missing
  | succeeds
  | throws
  deriving DecidableEq

/-- The host console: `present` models
`typeof console !== "undefined" && !!console`. -/
structure Console where
  present : Bool
  warn : ConsoleMethod
  log : ConsoleMethod
  deriving DecidableEq

/-- Result of a console interaction: the lines written, and whether a
JavaScript exception escaped. -/
structure ConsoleOut where
  writes : List String
  exn : Bool
  deriving DecidableEq

/-- `_InternalLogging.warnToConsole`: prefer `console.warn`, fall back to
`console.log`, silently skip when neither is a function.  A throwing method
is not caught here, so the exception escapes to the caller. -/
def warnToConsole (c : Console) (message : String) : ConsoleOut :=
  if c.present then
    match c.warn with
    | ConsoleMethod.succeeds => ⟨[message], false⟩
    | ConsoleMethod.throws => ⟨[], true⟩
    | ConsoleMethod.missing =>
      match c.log with
      | ConsoleMethod.succeeds => ⟨[message], false⟩
      | ConsoleMethod.throws => ⟨[], true⟩
      | ConsoleMethod.missing => ⟨[], false⟩
  else ⟨[], false⟩

/-- Environment of the diagnostic log: the two mode predicates
(`enableDebugExceptions()`, `verboseLogging()`) and the host console. -/
structure LogEnv where
  enableDebugExceptions : Bool
  verboseLogging : Bool
  console : Console
  deriving DecidableEq

/-- Mutable static state of `_InternalLogging`: the internal queue, the
message counter and `MAX_INTERNAL_MESSAGE_LIMIT`. -/
structure LogState where
  queue : List LogMessage
  messageCount : Nat
  maxInternalMessageLimit : Nat
  deriving DecidableEq

/-- The state at class initialisation: empty queue, counter 0, default
limit 25. -/
def freshLogState : LogState := ⟨[], 0, 25⟩

/-- `AiUserActionablePrefix` in the source. -/
def aiUserActionableTag : String := "AI: "

/-- `AiNonUserActionablePrefix` in the source. -/
def aiNonUserActionableTag : String := "AI (Internal): "

/-- Body text of the throttle-limit sentinel. -/
def throttleLimitBody : String :=
  "Internal events throttle limit per PageView reached for this app."

/-- Full text of the throttle-limit sentinel message. -/
def throttleLimitText : String := aiNonUserActionableTag ++ throttleLimitBody

/-- The sentinel `_InternalLogMessage` synthesized when the limit is hit. -/
def throttleLimitMessage : LogMessage := mkInternalLogMessage throttleLimitText none

/-- `_areInternalMessagesThrottled`. -/
def areInternalMessagesThrottled (st : LogState) : Bool :=
  st.maxInternalMessageLimit ≤ st.messageCount

/-- Result of `logInternalMessage`: the new static state, console lines
written, and whether an exception escaped (only possible from the
`warnToConsole` call on the sentinel). -/
structure LogOut where
  state : LogState
  writes : List String
  exn : Bool
  deriving DecidableEq

/-- `_InternalLogging.logInternalMessage`: drop everything once throttled;
queue (and count) the message when verbose or CRITICAL; when the counter
just reached the limit, additionally queue the sentinel (without counting
it) and warn to console. -/
def logInternalMessage (env : LogEnv) (st : LogState) (severity : LoggingSeverity)
    (message : LogMessage) : LogOut :=
  if areInternalMessagesThrottled st then ⟨st, [], false⟩
  else
    let st1 :=
      if env.verboseLogging = true ∨ severity = LoggingSeverity.CRITICAL then
        { st with queue := st.queue ++ [message], messageCount := st.messageCount + 1 }
      else st
    if st1.messageCount = st1.maxInternalMessageLimit then
      let st2 := { st1 with queue := st1.queue ++ [throttleLimitMessage] }
      let w := warnToConsole env.console throttleLimitText
      ⟨st2, w.writes, w.exn⟩
    else ⟨st1, [], false⟩

/-- `_InternalLogging.resetInternalMessageCount`. -/
def resetInternalMessageCount (st : LogState) : LogState :=
  { st with messageCount := 0 }

/-- What a `throwInternal*` call can throw: in debug mode the message
argument itself, otherwise only a runtime error escaping from
`JSON.stringify` or a console method. -/
inductive Thrown where
  | message : Option LogMessage → Thrown
  | runtimeError : Thrown
  deriving DecidableEq

/-- Result of a `throwInternal*` call: the new static state, the message
argument after the call (its `message` field is mutated in place by the
source), console lines written, and what was thrown, if anything. -/
structure ThrowOut where
  state : LogState
  arg : Option LogMessage
  writes : List String
  thrown : Option Thrown
  deriving DecidableEq

/-- Common body of `throwInternalUserActionable` and
`throwInternalNonUserActionable`; the two source methods are verbatim
copies of each other except for the prefix constant `tag`. -/
def throwInternalWith (tag : String) (env : LogEnv) (st : LogState)
    (severity : LoggingSeverity) (message : Option LogMessage) : ThrowOut :=
  if env.enableDebugExceptions then ⟨st, message, [], some (Thrown.message message)⟩
  else
    match message with
    | none => ⟨st, none, [], none⟩
    | some m =>
      match m.message with
      | none => ⟨st, some m, [], none⟩
      | some txt =>
        let m1 : LogMessage := { m with message := some (tag ++ txt) }
        let warnText : Option String :=
          match m1.properties with
          | JsProps.obj so => so.map fun s => tag ++ txt ++ " properties: " ++ s
          | JsProps.notObj => some (tag ++ txt)
        match warnText with
        | none => ⟨st, some m1, [], some Thrown.runtimeError⟩
        | some wt =>
          let w := warnToConsole env.console wt
          if w.exn then ⟨st, some m1, w.writes, some Thrown.runtimeError⟩
          else
            let out := logInternalMessage env st severity m1
            ⟨out.state, some m1, w.writes ++ out.writes,
              if out.exn then some Thrown.runtimeError else none⟩

/-- `_InternalLogging.throwInternalUserActionable`. -/
def throwInternalUserActionable (env : LogEnv) (st : LogState)
    (severity : LoggingSeverity) (message : Option LogMessage) : ThrowOut :=
  throwInternalWith aiUserActionableTag env st severity message

/-- `_InternalLogging.throwInternalNonUserActionable`. -/
def throwInternalNonUserActionable (env : LogEnv) (st : LogState)
    (severity : LoggingSeverity) (message : Option LogMessage) : ThrowOut :=
  throwInternalWith aiNonUserActionableTag env st severity message

/-- A sequence of `logInternalMessage` calls, threading the static state. -/
def runLog (env : LogEnv) : LogState → List (LoggingSeverity × LogMessage) → LogState
  | st, [] => st
  | st, p :: rest => runLog env (logInternalMessage env st p.1 p.2).state rest

/-- A session-storage cell as consumed by `+sessionStorage.getItem(key)`:
`absent` reads as `null` (unary plus gives 0), `num n` is a decimal numeric
string, `junk` is a non-numeric string (unary plus gives NaN, which every
reader replaces by 0 through its `isNaN` guard). -/
inductive Cell where
  | absent
  | num : Int → Cell
  | junk
  deriving DecidableEq

/-- Value of a cell after the `isNaN(+getItem(key)) ? 0 : +getItem(key)`
guard used by both ledger readers. -/
def cellToNumber : Cell → Int
  | Cell.absent => 0
  | Cell.num n => n
  | Cell.junk => 0

/-- The two persisted counters of `DataLossAnalyzer`, keyed by
`AI_itemsQueued` and `AI_lossIssuesReported`. -/
structure DLState where
  itemsQueued : Cell
  issuesReported : Cell
  deriving DecidableEq

/-- Environment of the loss ledger: the gates tested by `isEnabled` and the
behaviour of the persistence backend and of the injected reporter. -/
structure DLEnv where
  enabled : Bool
  appInsightsPresent : Bool
  storagePresent : Bool
  getItemThrows : Bool
  setItemThrows : Bool
  trackTraceThrows : Bool
  flushThrows : Bool
  deriving DecidableEq

/-- `DataLossAnalyzer.LIMIT_PER_SESSION`. -/
def LIMIT_PER_SESSION : Int := 10

/-- `DataLossAnalyzer.isEnabled`: the static flag, a registered reporter,
and a session storage with both primitives present. -/
def isEnabled (env : DLEnv) : Bool :=
  env.enabled && env.appInsightsPresent && env.storagePresent

/-- One `sessionStorage.getItem` call on a cell; throws when the backend
read throws. -/
def getItem (env : DLEnv) (c : Cell) : Except Unit Cell :=
  if env.getItemThrows then Except.error () else Except.ok c

/-- One `sessionStorage.setItem` call; throws when the backend write throws. -/
def setItemOk (env : DLEnv) : Except Unit Unit :=
  if env.setItemThrows then Except.error () else Except.ok ()

/-- `DataLossAnalyzer.reset`: no try/catch in the source, so a throwing
write propagates. -/
def reset (env : DLEnv) (st : DLState) : Except Unit DLState :=
  if isEnabled env then
    match setItemOk env with
    | Except.ok _ => Except.ok { st with itemsQueued := Cell.num 0 }
    | Except.error e => Except.error e
  else Except.ok st

/-- `DataLossAnalyzer.getIssuesReported`: no try/catch in the source, so a
throwing read propagates; disabled or unparsable reads give 0. -/
def getIssuesReported (env : DLEnv) (st : DLState) : Except Unit Int :=
  if isEnabled env then
    match getItem env st.issuesReported with
    | Except.ok c => Except.ok (cellToNumber c)
    | Except.error e => Except.error e
  else Except.ok 0

/-- Try-block of `DataLossAnalyzer.getNumberOfLostItems`. -/
def getNumberOfLostItemsBody (env : DLEnv) (st : DLState) : Except Unit Int :=
  if isEnabled env then
    match getItem env st.itemsQueued with
    | Except.ok c => Except.ok (cellToNumber c)
    | Except.error e => Except.error e
  else Except.ok 0

/-- `DataLossAnalyzer.getNumberOfLostItems`: its catch block replaces any
error by 0. -/
def getNumberOfLostItems (env : DLEnv) (st : DLState) : Int :=
  match getNumberOfLostItemsBody env st with
  | Except.ok n => n
  | Except.error _ => 0

/-- Try-block of `DataLossAnalyzer.incrementItemsQueued`. -/
def incrementItemsQueuedBody (env : DLEnv) (st : DLState) : Except Unit DLState :=
  if isEnabled env then
    let itemsQueued := getNumberOfLostItems env st + 1
    match setItemOk env with
    | Except.ok _ => Except.ok { st with itemsQueued := Cell.num itemsQueued }
    | Except.error e => Except.error e
  else Except.ok st

/-- `DataLossAnalyzer.incrementItemsQueued`: its catch block swallows any
error, leaving the state unchanged. -/
def incrementItemsQueued (env : DLEnv) (st : DLState) : DLState :=
  match incrementItemsQueuedBody env st with
  | Except.ok s => s
  | Except.error _ => st

/-- Try-block of `DataLossAnalyzer.decrementItemsQueued`: subtract, clamp
at 0, persist. -/
def decrementItemsQueuedBody (env : DLEnv) (st : DLState)
    (countOfItemsSentSuccessfully : Int) : Except Unit DLState :=
  if isEnabled env then
    let q := getNumberOfLostItems env st - countOfItemsSentSuccessfully
    let q2 := if q < 0 then 0 else q
    match setItemOk env with
    | Except.ok _ => Except.ok { st with itemsQueued := Cell.num q2 }
    | Except.error e => Except.error e
  else Except.ok st

/-- `DataLossAnalyzer.decrementItemsQueued`: its catch block swallows any
error, leaving the state unchanged. -/
def decrementItemsQueued (env : DLEnv) (st : DLState)
    (countOfItemsSentSuccessfully : Int) : DLState :=
  match decrementItemsQueuedBody env st countOfItemsSentSuccessfully with
  | Except.ok s => s
  | Except.error _ => st

/-- Result of `reportLostItems`: the final ledger state after the finally
block, how often the reporter primitives were invoked, and whether the
catch block ran (and logged a failure through the diagnostic log). -/
structure ReportOut where
  state : DLState
  trackTraceCalls : Nat
  flushCalls : Nat
  caught : Bool
  deriving DecidableEq

/-- Try-block of `DataLossAnalyzer.reportLostItems`, together with the
number of `trackTrace` and `flush` invocations it performed.  Every throw
site of the source is represented: the unguarded `getIssuesReported` reads,
`trackTrace`, `flush`, and the final `setItem`. -/
def reportLostItemsBody (env : DLEnv) (st : DLState) : Except Unit DLState × Nat × Nat :=
  if isEnabled env then
    match getIssuesReported env st with
    | Except.error e => (Except.error e, 0, 0)
    | Except.ok issues =>
      if issues < LIMIT_PER_SESSION ∧ 0 < getNumberOfLostItems env st then
        if env.trackTraceThrows then (Except.error (), 1, 0)
        else if env.flushThrows then (Except.error (), 1, 1)
        else
          match getIssuesReported env st with
          | Except.error e => (Except.error e, 1, 1)
          | Except.ok issuesReported =>
            match setItemOk env with
            | Except.error e => (Except.error e, 1, 1)
            | Except.ok _ =>
              (Except.ok { st with issuesReported := Cell.num (issuesReported + 1) }, 1, 1)
      else (Except.ok st, 0, 0)
  else (Except.ok st, 0, 0)

/-- `DataLossAnalyzer.reportLostItems`: the try-block above, a catch block
that swallows the error (logging it through the diagnostic log), and a
finally block that calls `reset` inside its own try/catch. -/
def reportLostItems (env : DLEnv) (st : DLState) : ReportOut :=
  let b := reportLostItemsBody env st
  let afterTry : DLState × Bool :=
    match b.1 with
    | Except.ok s => (s, false)
    | Except.error _ => (st, true)
  let finalState : DLState :=
    match reset env afterTry.1 with
    | Except.ok s => s
    | Except.error _ => afterTry.1
  ⟨finalState, b.2.1, b.2.2, afterTry.2⟩

/-- `incrementItemsQueued` iterated. -/
def incrementRepeated (env : DLEnv) : Nat → DLState → DLState
  | 0, st => st
  | k + 1, st => incrementItemsQueued env (incrementRepeated env k st)

/-- Ledger enabled, healthy backend, `trackTrace` throws. -/
def envTrackThrows : DLEnv := ⟨true, true, true, false, false, true, false⟩

/-- Ledger enabled, healthy backend and reporter. -/
def envLedgerOk : DLEnv := ⟨true, true, true, false, false, false, false⟩

/-- Ledger enabled, `setItem` throws. -/
def envSetThrows : DLEnv := ⟨true, true, true, false, true, false, false⟩

/-- Ledger enabled, `getItem` throws. -/
def envGetThrows : DLEnv := ⟨true, true, true, true, false, false, false⟩

/-- One lost item recorded, nothing reported yet. -/
def stOneLost : DLState := ⟨Cell.num 1, Cell.num 0⟩

/-- A ledger state with some queued items. -/
def stFiveLost : DLState := ⟨Cell.num 5, Cell.num 0⟩

/-- A ledger state whose `itemsQueued` key was never written. -/
def stUnset : DLState := ⟨Cell.absent, Cell.num 0⟩

/-- A host without any console object. -/
def noConsole : Console := ⟨false, ConsoleMethod.missing, ConsoleMethod.missing⟩

/-- A console whose `warn` method throws when called. -/
def consoleWarnThrows : Console := ⟨true, ConsoleMethod.throws, ConsoleMethod.missing⟩

/-- Debug exceptions off, verbose off, no console. -/
def envPlain : LogEnv := ⟨false, false, noConsole⟩

/-- Debug exceptions off, verbose ON, no console. -/
def envVerbose : LogEnv := ⟨false, true, noConsole⟩

/-- Debug exceptions off, verbose off, console whose `warn` throws. -/
def envBadConsole : LogEnv := ⟨false, false, consoleWarnThrows⟩

def strA : String := "first message"

def strB : String := "second message"

def strC : String := "third message"

def msgA : LogMessage := ⟨some strA, JsProps.notObj⟩

def msgB : LogMessage := ⟨some strB, JsProps.notObj⟩

def msgC : LogMessage := ⟨some strC, JsProps.notObj⟩

/-- True when neither console path can throw: the console is absent, or the
method that `warnToConsole` will call returns normally or is missing. -/
def consoleSafe (c : Console) : Bool :=
  if c.present then
    match c.warn with
    | ConsoleMethod.succeeds => true
    | ConsoleMethod.throws => false
    | ConsoleMethod.missing =>
      match c.log with
      | ConsoleMethod.succeeds => true
      | ConsoleMethod.throws => false
      | ConsoleMethod.missing => true
  else true

/-- True unless the message carries an object on which `JSON.stringify`
throws. -/
def stringifySafe : Option LogMessage → Bool
  | none => true
  | some m =>
    match m.properties with
    | JsProps.obj none => false
    | _ => true

/-- Bookkeeping invariant of the diagnostic log relative to a limit L: the
counter never exceeds L, and the queue holds exactly the counted messages,
plus the one uncounted sentinel exactly when the counter has reached L. -/
def logCountInvariantAt (L : Nat) (st : LogState) : Prop :=
  st.maxInternalMessageLimit = L ∧
  st.messageCount ≤ L ∧
  st.queue.length = st.messageCount + (if st.messageCount = L then 1 else 0)

end AppInsights

namespace AppInsights

theorem cellToNumber_num (n : Int) : cellToNumber (Cell.num n) = n := rfl

theorem getNumberOfLostItems_eval (env : DLEnv) (st : DLState)
    (hen : isEnabled env = true) (hg : env.getItemThrows = false) :
    getNumberOfLostItems env st = cellToNumber st.itemsQueued := by
  simp [getNumberOfLostItems, getNumberOfLostItemsBody, getItem, hen, hg]

theorem incrementItemsQueued_eval (env : DLEnv) (st : DLState)
    (hen : isEnabled env = true) (hg : env.getItemThrows = false)
    (hs : env.setItemThrows = false) :
    incrementItemsQueued env st =
      { st with itemsQueued := Cell.num (cellToNumber st.itemsQueued + 1) } := by
  simp [incrementItemsQueued, incrementItemsQueuedBody, setItemOk, hen, hs,
    getNumberOfLostItems_eval env st hen hg]

theorem decrementItemsQueued_eval (env : DLEnv) (st : DLState) (m : Int)
    (hen : isEnabled env = true) (hg : env.getItemThrows = false)
    (hs : env.setItemThrows = false) :
    decrementItemsQueued env st m =
      { st with itemsQueued :=
          Cell.num (if cellToNumber st.itemsQueued - m < 0 then 0
                    else cellToNumber st.itemsQueued - m) } := by
  simp [decrementItemsQueued, decrementItemsQueuedBody, setItemOk, hen, hs,
    getNumberOfLostItems_eval env st hen hg]

theorem incrementRepeated_count (env : DLEnv) (st : DLState)
    (hen : isEnabled env = true) (hg : env.getItemThrows = false)
    (hs : env.setItemThrows = false) (h0 : cellToNumber st.itemsQueued = 0) :
    ∀ j : Nat, cellToNumber (incrementRepeated env j st).itemsQueued = (j : Int) := by
  intro j
  induction j with
  | zero => simpa [incrementRepeated] using h0
  | succ k ih =>
    rw [incrementRepeated, incrementItemsQueued_eval env _ hen hg hs]
    simp only [cellToNumber_num, ih]
    push_cast
    ring

/-- C1 counterexample: with the ledger enabled, a healthy backend, one lost
item, no issues reported yet and a throwing `trackTrace`, the run ends with
`issuesReported` still 0 — the failed report is NOT counted against the
session limit, contrary to the claim that `issuesReported` is still
incremented and persisted. -/
theorem c1_counterexample :
    isEnabled envTrackThrows = true ∧
    getNumberOfLostItems envTrackThrows stOneLost = 1 ∧
    envTrackThrows.trackTraceThrows = true ∧
    reportLostItems envTrackThrows stOneLost = ⟨⟨Cell.num 0, Cell.num 0⟩, 1, 0, true⟩ ∧
    (reportLostItems envTrackThrows stOneLost).state.issuesReported ≠ Cell.num 1 := by
  refine ⟨rfl, rfl, rfl, rfl, ?_⟩
  decide

/-- C1 (amended): when the ledger is enabled, the backend is healthy, the
loss count is positive, `issuesReported` is under the limit and the reporter
(`trackTrace` or `flush`) throws, the exception is caught, `itemsQueued` is
still reset to 0 by the finally block, but `issuesReported` is left
UNCHANGED — the failed report does not count against the session limit. -/
theorem c1_reporter_failure (env : DLEnv) (st : DLState)
    (hen : isEnabled env = true) (hg : env.getItemThrows = false)
    (hs : env.setItemThrows = false)
    (hlim : cellToNumber st.issuesReported < LIMIT_PER_SESSION)
    (hloss : 0 < cellToNumber st.itemsQueued)
    (hthrow : env.trackTraceThrows = true ∨ env.flushThrows = true) :
    (reportLostItems env st).state.issuesReported = st.issuesReported ∧
    (reportLostItems env st).state.itemsQueued = Cell.num 0 ∧
    (reportLostItems env st).caught = true := by
  rcases hthrow with ht | hf
  · simp [reportLostItems, reportLostItemsBody, getIssuesReported, getItem, setItemOk,
      reset, hen, hg, hs, ht, hlim, hloss, getNumberOfLostItems_eval env st hen hg]
  · cases ht : env.trackTraceThrows <;>
      simp [reportLostItems, reportLostItemsBody, getIssuesReported, getItem, setItemOk,
        reset, hen, hg, hs, ht, hf, hlim, hloss, getNumberOfLostItems_eval env st hen hg]

theorem c1_witness :
    (reportLostItems envTrackThrows stOneLost).state.issuesReported =
      stOneLost.issuesReported ∧
    (reportLostItems envTrackThrows stOneLost).state.itemsQueued = Cell.num 0 ∧
    (reportLostItems envTrackThrows stOneLost).caught = true :=
  c1_reporter_failure envTrackThrows stOneLost rfl rfl rfl (by decide) (by decide)
    (Or.inl rfl)

/-- C2 counterexample: with the ledger enabled, `reset` has no try/catch, so
a throwing `setItem` propagates out of it; likewise `getIssuesReported`
propagates a throwing `getItem`.  This contradicts the claim that every
ledger operation swallows persistence errors. -/
theorem c2_counterexample :
    reset envSetThrows stFiveLost = Except.error () ∧
    getIssuesReported envGetThrows stFiveLost = Except.error () := by
  exact ⟨rfl, rfl⟩

/-- C2 (amended): when the ledger is disabled every operation is a no-op
returning a benign default (0 for the getters); `incrementItemsQueued`,
`decrementItemsQueued`, `getNumberOfLostItems` and `reportLostItems` swallow
any persistence-backend error (a throwing backend leaves the state unchanged
or yields 0, and nothing propagates), but `reset` and `getIssuesReported`
have no try/catch: with the ledger enabled and a throwing backend they
propagate the exception to the caller. -/
theorem c2_error_discipline (env : DLEnv) (st : DLState) (m : Int) :
    (isEnabled env = false →
      reset env st = Except.ok st ∧
      getIssuesReported env st = Except.ok 0 ∧
      incrementItemsQueued env st = st ∧
      decrementItemsQueued env st m = st ∧
      getNumberOfLostItems env st = 0 ∧
      reportLostItems env st = ⟨st, 0, 0, false⟩) ∧
    (env.setItemThrows = true →
      incrementItemsQueued env st = st ∧ decrementItemsQueued env st m = st) ∧
    (env.getItemThrows = true → getNumberOfLostItems env st = 0) ∧
    (isEnabled env = true → env.getItemThrows = true →
      (reportLostItems env st).caught = true) ∧
    (isEnabled env = true → env.setItemThrows = true →
      reset env st = Except.error ()) ∧
    (isEnabled env = true → env.getItemThrows = true →
      getIssuesReported env st = Except.error ()) := by
  refine ⟨?_, ?_, ?_, ?_, ?_, ?_⟩
  · intro h
    simp [reset, getIssuesReported, incrementItemsQueued, incrementItemsQueuedBody,
      decrementItemsQueued, decrementItemsQueuedBody, getNumberOfLostItems,
      getNumberOfLostItemsBody, reportLostItems, reportLostItemsBody, h]
  · intro h
    cases hen : isEnabled env <;>
      simp [incrementItemsQueued, incrementItemsQueuedBody, decrementItemsQueued,
        decrementItemsQueuedBody, setItemOk, h, hen]
  · intro h
    cases hen : isEnabled env <;>
      simp [getNumberOfLostItems, getNumberOfLostItemsBody, getItem, h, hen]
  · intro hen h
    simp [reportLostItems, reportLostItemsBody, getIssuesReported, getItem, hen, h]
  · intro hen h
    simp [reset, setItemOk, hen, h]
  · intro hen h
    simp [getIssuesReported, getItem, hen, h]

theorem c2_witness :
    incrementItemsQueued envSetThrows stFiveLost = stFiveLost ∧
    decrementItemsQueued envSetThrows stFiveLost 2 = stFiveLost ∧
    getNumberOfLostItems envGetThrows stFiveLost = 0 ∧
    (reportLostItems envGetThrows stFiveLost).caught = true :=
  ⟨(c2_error_discipline envSetThrows stFiveLost 2).2.1 rfl |>.1,
   (c2_error_discipline envSetThrows stFiveLost 2).2.1 rfl |>.2,
   (c2_error_discipline envGetThrows stFiveLost 2).2.2.1 rfl,
   (c2_error_discipline envGetThrows stFiveLost 2).2.2.2.1 rfl rfl⟩

/-- C6: with the ledger enabled and a healthy backend and reporter, a
`reportLostItems` call under the session limit with positive loss invokes
`trackTrace` and `flush` exactly once each, increments the persisted
`issuesReported` by exactly 1, and leaves the lost-item count at 0; once
`issuesReported` has reached the limit, further calls with positive loss
still reset `itemsQueued` to 0 but never invoke the reporter and leave
`issuesReported` unchanged (so it never exceeds the limit). -/
theorem c6_report_behavior (env : DLEnv) (st : DLState)
    (hen : isEnabled env = true) (hg : env.getItemThrows = false)
    (hs : env.setItemThrows = false)
    (ht : env.trackTraceThrows = false) (hf : env.flushThrows = false) :
    (cellToNumber st.issuesReported < LIMIT_PER_SESSION →
      0 < cellToNumber st.itemsQueued →
      reportLostItems env st =
        ⟨⟨Cell.num 0, Cell.num (cellToNumber st.issuesReported + 1)⟩, 1, 1, false⟩ ∧
      getNumberOfLostItems env (reportLostItems env st).state = 0) ∧
    (LIMIT_PER_SESSION ≤ cellToNumber st.issuesReported →
      0 < cellToNumber st.itemsQueued →
      reportLostItems env st =
        ⟨⟨Cell.num 0, st.issuesReported⟩, 0, 0, false⟩) := by
  constructor
  · intro hlim hloss
    constructor
    · simp [reportLostItems, reportLostItemsBody, getIssuesReported, getItem, setItemOk,
        reset, hen, hg, hs, ht, hf, hlim, hloss, getNumberOfLostItems_eval env st hen hg]
    · simp [reportLostItems, reportLostItemsBody, getIssuesReported, getItem, setItemOk,
        reset, hen, hg, hs, ht, hf, hlim, hloss, getNumberOfLostItems_eval env st hen hg,
        getNumberOfLostItems, getNumberOfLostItemsBody, cellToNumber]
  · intro hlim hloss
    have hnot : ¬ cellToNumber st.issuesReported < LIMIT_PER_SESSION := not_lt.mpr hlim
    simp [reportLostItems, reportLostItemsBody, getIssuesReported, getItem, setItemOk,
      reset, hen, hg, hs, hnot]

theorem c6_witness :
    reportLostItems envLedgerOk stOneLost = ⟨⟨Cell.num 0, Cell.num 1⟩, 1, 1, false⟩ ∧
    reportLostItems envLedgerOk ⟨Cell.num 1, Cell.num 10⟩ =
      ⟨⟨Cell.num 0, Cell.num 10⟩, 0, 0, false⟩ :=
  ⟨((c6_report_behavior envLedgerOk stOneLost rfl rfl rfl rfl rfl).1
      (by decide) (by decide)).1,
   (c6_report_behavior envLedgerOk ⟨Cell.num 1, Cell.num 10⟩ rfl rfl rfl rfl rfl).2
      (by decide) (by decide)⟩

/-- C8: starting from an unset or zero `itemsQueued` with the ledger enabled
and a healthy backend, K increments followed by one decrement of M leave the
lost-item count at K - M when M ≤ K and at 0 when M > K; the persisted value
is never negative. -/
theorem c8_increment_decrement (env : DLEnv) (st : DLState) (K M : Nat)
    (hen : isEnabled env = true) (hg : env.getItemThrows = false)
    (hs : env.setItemThrows = false)
    (h0 : st.itemsQueued = Cell.absent ∨ st.itemsQueued = Cell.num 0) :
    (∀ j : Nat, cellToNumber (incrementRepeated env j st).itemsQueued = (j : Int)) ∧
    (decrementItemsQueued env (incrementRepeated env K st) (M : Int)).itemsQueued =
      Cell.num (if (M : Int) ≤ (K : Int) then (K : Int) - (M : Int) else 0) ∧
    getNumberOfLostItems env
        (decrementItemsQueued env (incrementRepeated env K st) (M : Int)) =
      (if (M : Int) ≤ (K : Int) then (K : Int) - (M : Int) else 0) ∧
    0 ≤ cellToNumber
        (decrementItemsQueued env (incrementRepeated env K st) (M : Int)).itemsQueued := by
  have h0n : cellToNumber st.itemsQueued = 0 := by
    rcases h0 with h | h <;> simp [h, cellToNumber]
  have hcount := incrementRepeated_count env st hen hg hs h0n
  have hdec := decrementItemsQueued_eval env (incrementRepeated env K st) (M : Int) hen hg hs
  have hval : cellToNumber (incrementRepeated env K st).itemsQueued = (K : Int) := hcount K
  have hiff : (if cellToNumber (incrementRepeated env K st).itemsQueued - (M : Int) < 0
        then 0 else cellToNumber (incrementRepeated env K st).itemsQueued - (M : Int)) =
      (if (M : Int) ≤ (K : Int) then (K : Int) - (M : Int) else 0) := by
    rw [hval]
    split_ifs <;> omega
  refine ⟨hcount, ?_, ?_, ?_⟩
  · rw [hdec, hiff]
  · rw [getNumberOfLostItems_eval env _ hen hg, hdec, hiff]
    simp [cellToNumber]
  · rw [hdec, hiff]
    simp [cellToNumber]
    split_ifs <;> omega

theorem logInternalMessage_throttled (env : LogEnv) (st : LogState)
    (sev : LoggingSeverity) (m : LogMessage)
    (h : st.maxInternalMessageLimit ≤ st.messageCount) :
    logInternalMessage env st sev m = ⟨st, [], false⟩ := by
  simp [logInternalMessage, areInternalMessagesThrottled, h]

theorem runLog_throttled (env : LogEnv) (st : LogState)
    (ms : List (LoggingSeverity × LogMessage))
    (h : st.maxInternalMessageLimit ≤ st.messageCount) :
    runLog env st ms = st := by
  induction ms with
  | nil => rfl
  | cons p rest ih =>
    rw [runLog, logInternalMessage_throttled env st p.1 p.2 h]
    exact ih

theorem runLog_append (env : LogEnv) (st : LogState)
    (a b : List (LoggingSeverity × LogMessage)) :
    runLog env st (a ++ b) = runLog env (runLog env st a) b := by
  induction a generalizing st with
  | nil => rfl
  | cons p rest ih => rw [List.cons_append, runLog, runLog, ih]

theorem logInternalMessage_step (env : LogEnv) (st : LogState)
    (sev : LoggingSeverity) (m : LogMessage)
    (hc : st.messageCount < st.maxInternalMessageLimit)
    (hp : env.verboseLogging = true ∨ sev = LoggingSeverity.CRITICAL) :
    (logInternalMessage env st sev m).state =
      ⟨st.queue ++ [m] ++
        (if st.messageCount + 1 = st.maxInternalMessageLimit
         then [throttleLimitMessage] else []),
       st.messageCount + 1, st.maxInternalMessageLimit⟩ := by
  have hth : areInternalMessagesThrottled st = false := by
    simp [areInternalMessagesThrottled]
    omega
  rcases hp with hv | hsev
  · by_cases hcl : st.messageCount + 1 = st.maxInternalMessageLimit <;>
      simp [logInternalMessage, hth, hv, hcl]
  · by_cases hcl : st.messageCount + 1 = st.maxInternalMessageLimit <;>
      simp [logInternalMessage, hth, hsev, hcl]

theorem logInternalMessage_step_mk (env : LogEnv) (q : List LogMessage) (c L : Nat)
    (sev : LoggingSeverity) (m : LogMessage) (hc : c < L)
    (hp : env.verboseLogging = true ∨ sev = LoggingSeverity.CRITICAL) :
    (logInternalMessage env ⟨q, c, L⟩ sev m).state =
      ⟨q ++ [m] ++ (if c + 1 = L then [throttleLimitMessage] else []), c + 1, L⟩ :=
  logInternalMessage_step env ⟨q, c, L⟩ sev m hc hp

theorem logInternalMessage_nopush (env : LogEnv) (st : LogState)
    (sev : LoggingSeverity) (m : LogMessage)
    (hc : st.messageCount < st.maxInternalMessageLimit)
    (hp : ¬ (env.verboseLogging = true ∨ sev = LoggingSeverity.CRITICAL)) :
    logInternalMessage env st sev m = ⟨st, [], false⟩ := by
  have hth : areInternalMessagesThrottled st = false := by
    simp [areInternalMessagesThrottled]
    omega
  have hne : st.messageCount ≠ st.maxInternalMessageLimit := by omega
  simp [logInternalMessage, hth, hp, hne]

theorem runLog_fill_below (env : LogEnv) (L : Nat)
    (ms : List (LoggingSeverity × LogMessage)) :
    ∀ (q : List LogMessage) (c : Nat),
    (∀ p ∈ ms, env.verboseLogging = true ∨ p.1 = LoggingSeverity.CRITICAL) →
    c + ms.length < L →
    runLog env ⟨q, c, L⟩ ms = ⟨q ++ ms.map Prod.snd, c + ms.length, L⟩ := by
  induction ms with
  | nil =>
    intro q c hall h
    simp [runLog]
  | cons p rest ih =>
    intro q c hall h
    have hlen : c + (rest.length + 1) < L := by
      simpa [List.length_cons] using h
    have hc : c < L := by omega
    have hne : ¬ c + 1 = L := by omega
    rw [runLog, logInternalMessage_step_mk env q c L p.1 p.2 hc
      (hall p (List.mem_cons_self p rest))]
    rw [if_neg hne, List.append_nil]
    rw [ih (q ++ [p.2]) (c + 1)
      (fun p2 hp2 => hall p2 (List.mem_cons_of_mem p hp2)) (by omega)]
    congr 1
    · simp
    · simp only [List.length_cons]
      omega

theorem runLog_fill_to_limit (env : LogEnv) (L : Nat)
    (ms : List (LoggingSeverity × LogMessage)) :
    ∀ (q : List LogMessage) (c : Nat),
    (∀ p ∈ ms, env.verboseLogging = true ∨ p.1 = LoggingSeverity.CRITICAL) →
    ms ≠ [] →
    c + ms.length = L →
    runLog env ⟨q, c, L⟩ ms =
      ⟨q ++ ms.map Prod.snd ++ [throttleLimitMessage], L, L⟩ := by
  induction ms with
  | nil =>
    intro q c hall hne h
    exact absurd rfl hne
  | cons p rest ih =>
    intro q c hall hne h
    have hlen : c + (rest.length + 1) = L := by
      simpa [List.length_cons] using h
    have hc : c < L := by omega
    rw [runLog, logInternalMessage_step_mk env q c L p.1 p.2 hc
      (hall p (List.mem_cons_self p rest))]
    by_cases hr : rest = []
    · subst hr
      have hcl : c + 1 = L := by simpa using hlen
      rw [if_pos hcl, runLog]
      simp [hcl]
    · have hr1 : 1 ≤ rest.length := by
        rcases rest with _ | ⟨r2, rs2⟩
        · exact absurd rfl hr
        · simp [List.length_cons]
      have hne1 : ¬ c + 1 = L := by omega
      rw [if_neg hne1, List.append_nil]
      rw [ih (q ++ [p.2]) (c + 1)
        (fun p2 hp2 => hall p2 (List.mem_cons_of_mem p hp2)) hr (by omega)]
      congr 1
      simp

theorem logInternalMessage_preserves_inv (env : LogEnv) (L : Nat) (st : LogState)
    (sev : LoggingSeverity) (m : LogMessage) (h : logCountInvariantAt L st) :
    logCountInvariantAt L (logInternalMessage env st sev m).state := by
  obtain ⟨hL, h1, h2⟩ := h
  by_cases hth : st.maxInternalMessageLimit ≤ st.messageCount
  · rw [logInternalMessage_throttled env st sev m hth]
    exact ⟨hL, h1, h2⟩
  · have hc : st.messageCount < st.maxInternalMessageLimit := by omega
    have hneL : ¬ st.messageCount = L := by omega
    rw [if_neg hneL] at h2
    by_cases hp : env.verboseLogging = true ∨ sev = LoggingSeverity.CRITICAL
    · rw [logInternalMessage_step env st sev m hc hp]
      refine ⟨hL, ?_, ?_⟩
      · dsimp only
        omega
      dsimp only
      by_cases hcl : st.messageCount + 1 = st.maxInternalMessageLimit
      · have hclL : st.messageCount + 1 = L := by omega
        rw [if_pos hclL]
        rw [if_pos hcl]
        simp [List.length_append]
        omega
      · have hclL : ¬ st.messageCount + 1 = L := by omega
        rw [if_neg hclL]
        rw [if_neg hcl]
        simp [List.length_append]
        omega
    · rw [logInternalMessage_nopush env st sev m hc hp]
      refine ⟨hL, h1, ?_⟩
      rw [if_neg hneL]
      exact h2

theorem runLog_preserves_inv (env : LogEnv) (L : Nat) (st : LogState)
    (ms : List (LoggingSeverity × LogMessage)) (h : logCountInvariantAt L st) :
    logCountInvariantAt L (runLog env st ms) := by
  induction ms generalizing st with
  | nil => exact h
  | cons p rest ih =>
    rw [runLog]
    exact ih _ (logInternalMessage_preserves_inv env L st p.1 p.2 h)

theorem warnToConsole_safe (c : Console) (s : String) (h : consoleSafe c = true) :
    (warnToConsole c s).exn = false := by
  obtain ⟨p, w, l⟩ := c
  cases p <;> cases w <;> cases l <;> simp_all [consoleSafe, warnToConsole]

theorem logInternalMessage_noexn (env : LogEnv) (st : LogState)
    (sev : LoggingSeverity) (m : LogMessage) (h : consoleSafe env.console = true) :
    (logInternalMessage env st sev m).exn = false := by
  have hw : ∀ s : String, (warnToConsole env.console s).exn = false :=
    fun s => warnToConsole_safe env.console s h
  by_cases h1 : areInternalMessagesThrottled st = true
  · simp [logInternalMessage, h1]
  · by_cases h2 : env.verboseLogging = true ∨ sev = LoggingSeverity.CRITICAL <;>
      simp [logInternalMessage, h1, h2, hw, apply_ite]

theorem throwInternalWith_nothrow (tag : String) (env : LogEnv) (st : LogState)
    (sev : LoggingSeverity) (message : Option LogMessage)
    (hdbg : env.enableDebugExceptions = false)
    (hc : consoleSafe env.console = true)
    (hs : stringifySafe message = true) :
    (throwInternalWith tag env st sev message).thrown = none := by
  have hw : ∀ s : String, (warnToConsole env.console s).exn = false :=
    fun s => warnToConsole_safe env.console s hc
  have hlex : ∀ m2 : LogMessage, (logInternalMessage env st sev m2).exn = false :=
    fun m2 => logInternalMessage_noexn env st sev m2 hc
  rcases message with _ | mm
  · simp [throwInternalWith, hdbg]
  · rcases mm with ⟨mmsg, mprops⟩
    rcases mmsg with _ | txt
    · simp [throwInternalWith, hdbg]
    · rcases mprops with _ | so
      · simp [throwInternalWith, hdbg, hw, hlex]
      · rcases so with _ | s2
        · simp [stringifySafe] at hs
        · simp [throwInternalWith, hdbg, hw, hlex]

theorem throwInternalWith_arg (tag : String) (env : LogEnv) (st : LogState)
    (sev : LoggingSeverity) (m : LogMessage) (txt : String)
    (hdbg : env.enableDebugExceptions = false) (hm : m.message = some txt) :
    (throwInternalWith tag env st sev (some m)).arg =
      some { m with message := some (tag ++ txt) } := by
  cases hp : m.properties with
  | notObj =>
    by_cases hw : (warnToConsole env.console (tag ++ txt)).exn = true
    · simp [throwInternalWith, hdbg, hm, hp, hw]
    · simp [throwInternalWith, hdbg, hm, hp, hw]
  | obj so =>
    rcases so with _ | s2
    · simp [throwInternalWith, hdbg, hm, hp]
    · by_cases hw :
        (warnToConsole env.console (tag ++ txt ++ " properties: " ++ s2)).exn = true
      · simp [throwInternalWith, hdbg, hm, hp, hw]
      · simp [throwInternalWith, hdbg, hm, hp, hw]

/-- C3: for every throttle limit L at least 1 and a fresh throttle state with
verbose off, L+2 CRITICAL record calls leave exactly L+1 queue entries: the
first L are the first L recorded messages, the last is the synthesized
sentinel with the documented text; every further record call leaves the
state unchanged, while a call made after the counter is reset grows the
queue again. -/
theorem c3_throttle_sentinel (env : LogEnv) (L : Nat) (ms : List LogMessage)
    (hv : env.verboseLogging = false) (hL : 1 ≤ L) (hlen : ms.length = L + 2) :
    (runLog env ⟨[], 0, L⟩ (ms.map fun m => (LoggingSeverity.CRITICAL, m))).queue =
      ms.take L ++ [throttleLimitMessage] ∧
    (runLog env ⟨[], 0, L⟩ (ms.map fun m => (LoggingSeverity.CRITICAL, m))).queue.length =
      L + 1 ∧
    throttleLimitMessage.message = some throttleLimitText ∧
    throttleLimitText =
      "AI (Internal): Internal events throttle limit per PageView reached for this app." ∧
    (∀ (sev : LoggingSeverity) (m2 : LogMessage),
      (logInternalMessage env
          (runLog env ⟨[], 0, L⟩ (ms.map fun m => (LoggingSeverity.CRITICAL, m)))
          sev m2).state =
        runLog env ⟨[], 0, L⟩ (ms.map fun m => (LoggingSeverity.CRITICAL, m))) ∧
    (∀ m2 : LogMessage,
      (runLog env ⟨[], 0, L⟩ (ms.map fun m => (LoggingSeverity.CRITICAL, m))).queue.length <
        (logInternalMessage env
          (resetInternalMessageCount
            (runLog env ⟨[], 0, L⟩ (ms.map fun m => (LoggingSeverity.CRITICAL, m))))
          LoggingSeverity.CRITICAL m2).state.queue.length) := by
  have hPlen : (ms.map fun m => (LoggingSeverity.CRITICAL, m)).length = L + 2 := by
    simp [hlen]
  have htake_len : ((ms.map fun m => (LoggingSeverity.CRITICAL, m)).take L).length = L := by
    rw [List.length_take, hPlen]
    omega
  have hall : ∀ p ∈ (ms.map fun m => (LoggingSeverity.CRITICAL, m)).take L,
      env.verboseLogging = true ∨ p.1 = LoggingSeverity.CRITICAL := by
    intro p hp
    have hp2 := List.mem_of_mem_take hp
    rcases List.mem_map.mp hp2 with ⟨m0, _, hm0⟩
    rw [← hm0]
    exact Or.inr rfl
  have htake_ne : (ms.map fun m => (LoggingSeverity.CRITICAL, m)).take L ≠ [] := by
    intro h0
    rw [h0] at htake_len
    simp at htake_len
    omega
  have hfill := runLog_fill_to_limit env L
    ((ms.map fun m => (LoggingSeverity.CRITICAL, m)).take L) [] 0 hall htake_ne
    (by rw [htake_len]; omega)
  have hmap : ((ms.map fun m => (LoggingSeverity.CRITICAL, m)).take L).map Prod.snd =
      ms.take L := by
    rw [← List.map_take, List.map_map]
    simp
  have hfinal : runLog env ⟨[], 0, L⟩ (ms.map fun m => (LoggingSeverity.CRITICAL, m)) =
      ⟨ms.take L ++ [throttleLimitMessage], L, L⟩ := by
    conv_lhs =>
      rw [← List.take_append_drop L (ms.map fun m => (LoggingSeverity.CRITICAL, m))]
    rw [runLog_append, hfill, runLog_throttled env _ _ (le_refl L), hmap]
    simp
  refine ⟨?_, ?_, rfl, rfl, ?_, ?_⟩
  · rw [hfinal]
  · rw [hfinal]
    simp only [List.length_append, List.length_take, List.length_cons, List.length_nil,
      hlen]
    omega
  · intro sev m2
    rw [hfinal, logInternalMessage_throttled env _ sev m2 (le_refl L)]
  · intro m2
    rw [hfinal]
    rw [show resetInternalMessageCount ⟨ms.take L ++ [throttleLimitMessage], L, L⟩ =
        (⟨ms.take L ++ [throttleLimitMessage], 0, L⟩ : LogState) from rfl]
    rw [logInternalMessage_step_mk env (ms.take L ++ [throttleLimitMessage]) 0 L
      LoggingSeverity.CRITICAL m2 (by omega) (Or.inr rfl)]
    by_cases h1 : 0 + 1 = L
    · rw [if_pos h1]
      simp only [List.length_append, List.length_cons, List.length_nil]
      omega
    · rw [if_neg h1]
      simp only [List.length_append, List.length_cons, List.length_nil]
      omega

theorem c3_witness :
    (runLog envPlain ⟨[], 0, 1⟩
        ([msgA, msgB, msgC].map fun m => (LoggingSeverity.CRITICAL, m))).queue =
      [msgA, msgB, msgC].take 1 ++ [throttleLimitMessage] :=
  (c3_throttle_sentinel envPlain 1 [msgA, msgB, msgC] rfl (by omega) rfl).1

/-- C4 counterexample: with throttle limit 1 and a fresh state, one CRITICAL
record call leaves the counter at 1 but the queue with 2 entries (the
message and the sentinel): the sentinel is queued WITHOUT incrementing the
counter, so the counter does not equal the number of messages queued since
the last reset. -/
theorem c4_counterexample :
    (logInternalMessage envPlain ⟨[], 0, 1⟩ LoggingSeverity.CRITICAL
        msgA).state.messageCount = 1 ∧
    (logInternalMessage envPlain ⟨[], 0, 1⟩ LoggingSeverity.CRITICAL
        msgA).state.queue.length = 2 ∧
    (logInternalMessage envPlain ⟨[], 0, 1⟩ LoggingSeverity.CRITICAL
        msgA).state.messageCount ≠
      (logInternalMessage envPlain ⟨[], 0, 1⟩ LoggingSeverity.CRITICAL
        msgA).state.queue.length := by
  refine ⟨rfl, rfl, ?_⟩
  decide

/-- C4 (amended): the counter starts at 0 and is incremented exactly once
per message queued through the severity/verbosity gate, but the sentinel is
queued without incrementing it; hence after any run from a fresh state with
limit L at least 1, the counter never exceeds L and the queue length equals
the counter plus one extra entry exactly when the counter has reached L. -/
theorem c4_counter_vs_queue (env : LogEnv) (L : Nat)
    (ms : List (LoggingSeverity × LogMessage)) (hL : 1 ≤ L) :
    (runLog env ⟨[], 0, L⟩ ms).messageCount ≤ L ∧
    (runLog env ⟨[], 0, L⟩ ms).queue.length =
      (runLog env ⟨[], 0, L⟩ ms).messageCount +
        (if (runLog env ⟨[], 0, L⟩ ms).messageCount = L then 1 else 0) := by
  have hbase : logCountInvariantAt L ⟨[], 0, L⟩ := by
    refine ⟨rfl, Nat.zero_le L, ?_⟩
    have h0 : ¬ (0 = L) := by omega
    simp [h0]
  have h := runLog_preserves_inv env L ⟨[], 0, L⟩ ms hbase
  exact ⟨h.2.1, h.2.2⟩

theorem c4_witness :
    (runLog envPlain ⟨[], 0, 1⟩ [(LoggingSeverity.CRITICAL, msgA)]).messageCount ≤ 1 :=
  (c4_counter_vs_queue envPlain 1 [(LoggingSeverity.CRITICAL, msgA)] (by omega)).1

/-- C5 counterexample: with debug exceptions off, a console whose `warn`
throws makes `warnToConsole` (and hence `throwInternalUserActionable`)
propagate the exception, and a message whose properties cannot be
JSON-serialized makes `throwInternalNonUserActionable` propagate even with
no console at all — the Diagnostic Log operations are NOT exception-free
for every console/host behaviour. -/
theorem c5_counterexample :
    envBadConsole.enableDebugExceptions = false ∧
    (warnToConsole consoleWarnThrows strA).exn = true ∧
    (throwInternalUserActionable envBadConsole freshLogState LoggingSeverity.CRITICAL
        (some msgA)).thrown = some Thrown.runtimeError ∧
    (throwInternalNonUserActionable envPlain freshLogState LoggingSeverity.CRITICAL
        (some ⟨some strA, JsProps.obj none⟩)).thrown = some Thrown.runtimeError :=
  ⟨rfl, rfl, rfl, rfl⟩

/-- C5 (amended): with debug exceptions off, the Diagnostic Log operations
never throw PROVIDED the console methods that get called do not themselves
throw and the message properties are JSON-serializable; a missing console
object or missing warn/log methods is tolerated silently.  When a console
method or `JSON.stringify` throws, the exception propagates (see the
counterexample). -/
theorem c5_fail_open (env : LogEnv) (st : LogState) (sev : LoggingSeverity)
    (message : Option LogMessage) (m : LogMessage) (s : String)
    (hdbg : env.enableDebugExceptions = false)
    (hc : consoleSafe env.console = true)
    (hs : stringifySafe message = true) :
    (warnToConsole env.console s).exn = false ∧
    (logInternalMessage env st sev m).exn = false ∧
    (throwInternalUserActionable env st sev message).thrown = none ∧
    (throwInternalNonUserActionable env st sev message).thrown = none :=
  ⟨warnToConsole_safe env.console s hc,
   logInternalMessage_noexn env st sev m hc,
   throwInternalWith_nothrow aiUserActionableTag env st sev message hdbg hc hs,
   throwInternalWith_nothrow aiNonUserActionableTag env st sev message hdbg hc hs⟩

theorem c5_witness :
    (throwInternalUserActionable envPlain freshLogState LoggingSeverity.CRITICAL
        (some msgA)).thrown = none :=
  (c5_fail_open envPlain freshLogState LoggingSeverity.CRITICAL (some msgA) msgA strA
    rfl rfl rfl).2.2.1

/-- C7: with verbose off and a fresh state, a WARNING record call queues
nothing (the state is unchanged) while a CRITICAL call queues exactly that
one message; with verbose on, a run of N calls of any severities from a
fresh state with limit L and N at most L queues all N messages in order and
counts all N. -/
theorem c7_severity_filter (env envV : LogEnv) (m : LogMessage) (L : Nat)
    (ms : List (LoggingSeverity × LogMessage))
    (hv : env.verboseLogging = false) (hvv : envV.verboseLogging = true)
    (hlen : ms.length ≤ L) :
    (logInternalMessage env freshLogState LoggingSeverity.WARNING m).state =
      freshLogState ∧
    (logInternalMessage env freshLogState LoggingSeverity.CRITICAL m).state.queue =
      [m] ∧
    (runLog envV ⟨[], 0, L⟩ ms).queue.take ms.length = ms.map Prod.snd ∧
    (runLog envV ⟨[], 0, L⟩ ms).messageCount = ms.length := by
  have hall : ∀ p ∈ ms, envV.verboseLogging = true ∨ p.1 = LoggingSeverity.CRITICAL :=
    fun p _ => Or.inl hvv
  have hskip : logInternalMessage env freshLogState LoggingSeverity.WARNING m =
      ⟨freshLogState, [], false⟩ := by
    apply logInternalMessage_nopush
    · show (0 : Nat) < 25
      omega
    · simp [hv]
  have hcrit := logInternalMessage_step_mk env [] 0 25 LoggingSeverity.CRITICAL m
    (by omega) (Or.inr rfl)
  have h125 : ¬ (0 + 1 = 25) := by omega
  refine ⟨by rw [hskip], ?_, ?_, ?_⟩
  · show (logInternalMessage env ⟨[], 0, 25⟩ LoggingSeverity.CRITICAL m).state.queue = [m]
    rw [hcrit, if_neg h125]
    simp
  · rcases lt_or_eq_of_le hlen with hlt | heq
    · rw [runLog_fill_below envV L ms [] 0 hall (by omega)]
      simp
    · by_cases hne : ms = []
      · subst hne
        simp [runLog]
      · rw [runLog_fill_to_limit envV L ms [] 0 hall hne (by omega)]
        have hml : ms.length = (ms.map Prod.snd).length := by simp
        rw [hml]
        simp [List.take_left]
  · rcases lt_or_eq_of_le hlen with hlt | heq
    · rw [runLog_fill_below envV L ms [] 0 hall (by omega)]
      simp
    · by_cases hne : ms = []
      · subst hne
        simp [runLog]
      · rw [runLog_fill_to_limit envV L ms [] 0 hall hne (by omega)]
        simp [heq]

theorem c7_witness :
    (logInternalMessage envPlain freshLogState LoggingSeverity.WARNING msgA).state =
      freshLogState ∧
    (runLog envVerbose ⟨[], 0, 2⟩
        [(LoggingSeverity.WARNING, msgA), (LoggingSeverity.CRITICAL, msgB)]).messageCount =
      [(LoggingSeverity.WARNING, msgA), (LoggingSeverity.CRITICAL, msgB)].length :=
  ⟨(c7_severity_filter envPlain envVerbose msgA 2
      [(LoggingSeverity.WARNING, msgA), (LoggingSeverity.CRITICAL, msgB)]
      rfl rfl (by decide)).1,
   (c7_severity_filter envPlain envVerbose msgA 2
      [(LoggingSeverity.WARNING, msgA), (LoggingSeverity.CRITICAL, msgB)]
      rfl rfl (by decide)).2.2.2⟩

/-- C9: with debug exceptions off, a single `throwInternalUserActionable`
or `throwInternalNonUserActionable` call on a message with a defined text
prefixes the text exactly once with the class-appropriate prefix, for every
state (so also when the message is then dropped by the throttle or the
verbosity filter) and for every console/stringify behaviour. -/
theorem c9_tag_once (env : LogEnv) (st : LogState) (sev : LoggingSeverity)
    (m : LogMessage) (txt : String)
    (hdbg : env.enableDebugExceptions = false) (hm : m.message = some txt) :
    (throwInternalUserActionable env st sev (some m)).arg =
      some { m with message := some (aiUserActionableTag ++ txt) } ∧
    (throwInternalNonUserActionable env st sev (some m)).arg =
      some { m with message := some (aiNonUserActionableTag ++ txt) } :=
  ⟨throwInternalWith_arg aiUserActionableTag env st sev m txt hdbg hm,
   throwInternalWith_arg aiNonUserActionableTag env st sev m txt hdbg hm⟩

theorem c9_witness :
    (throwInternalUserActionable envPlain freshLogState LoggingSeverity.WARNING
        (some msgA)).arg =
      some ⟨some (aiUserActionableTag ++ strA), JsProps.notObj⟩ :=
  (c9_tag_once envPlain freshLogState LoggingSeverity.WARNING msgA strA rfl rfl).1

/-- C10: with debug exceptions off, a `throwInternal*` call on a null or
undefined message, or on a message whose text field is undefined, is a
complete no-op: state, argument, console output all unchanged and nothing
thrown; with debug exceptions on, the argument is thrown as-is even in
these degenerate cases. -/
theorem c10_degenerate (env : LogEnv) (st : LogState) (sev : LoggingSeverity)
    (m : LogMessage) (x : Option LogMessage) :
    (env.enableDebugExceptions = false →
      throwInternalUserActionable env st sev none = ⟨st, none, [], none⟩ ∧
      throwInternalNonUserActionable env st sev none = ⟨st, none, [], none⟩ ∧
      (m.message = none →
        throwInternalUserActionable env st sev (some m) = ⟨st, some m, [], none⟩ ∧
        throwInternalNonUserActionable env st sev (some m) = ⟨st, some m, [], none⟩)) ∧
    (env.enableDebugExceptions = true →
      throwInternalUserActionable env st sev x = ⟨st, x, [], some (Thrown.message x)⟩ ∧
      throwInternalNonUserActionable env st sev x =
        ⟨st, x, [], some (Thrown.message x)⟩) := by
  constructor
  · intro hdbg
    refine ⟨?_, ?_, fun hm => ⟨?_, ?_⟩⟩
    · simp [throwInternalUserActionable, throwInternalWith, hdbg]
    · simp [throwInternalNonUserActionable, throwInternalWith, hdbg]
    · simp [throwInternalUserActionable, throwInternalWith, hdbg, hm]
    · simp [throwInternalNonUserActionable, throwInternalWith, hdbg, hm]
  · intro hdbg
    constructor
    · simp [throwInternalUserActionable, throwInternalWith, hdbg]
    · simp [throwInternalNonUserActionable, throwInternalWith, hdbg]

theorem c10_witness :
    throwInternalUserActionable envPlain freshLogState LoggingSeverity.CRITICAL none =
      ⟨freshLogState, none, [], none⟩ :=
  ((c10_degenerate envPlain freshLogState LoggingSeverity.CRITICAL msgA none).1 rfl).1

theorem c8_witness :
    (decrementItemsQueued envLedgerOk (incrementRepeated envLedgerOk 3 stUnset)
        ((5 : Nat) : Int)).itemsQueued = Cell.num 0 ∧
    cellToNumber (incrementRepeated envLedgerOk 3 stUnset).itemsQueued = 3 :=
  ⟨by
    have h := (c8_increment_decrement envLedgerOk stUnset 3 5 rfl rfl rfl
      (Or.inl rfl)).2.1
    simpa using h,
   by
    have h := (c8_increment_decrement envLedgerOk stUnset 3 5 rfl rfl rfl
      (Or.inl rfl)).1 3
    simpa using h⟩

end AppInsights
